import Mathlib

/-!
Verification of the aoty-crawler core against its specification.

This file gives a shallow embedding, in Lean 4, of the parts of the
crawler that the specification's testable properties talk about:

* the genre-filter matching of `ProductionSpider.parse_genre_page`
  (`src/aoty_crawler/spiders/production_spider.py`, lines 180-200);
* the ratings-page traversal of `ProductionSpider.parse_ratings_page`
  (lines 233-303): resume-ledger filtering, per-year quota, pagination;
* the field extractors `_extract_album_title`, `_extract_artist_name`
  and `_extract_critic_score` (lines 381-450), shared verbatim with
  `comprehensive_album_spider.py` (lines 93-130);
* the item pipelines of `src/aoty_crawler/pipelines.py`
  (`DuplicateCheckPipeline`, `ValidationPipeline`, `FileStoragePipeline`)
  and the load-time validity filter
  `src/aoty_crawler/utils/data_loader.py::filter_invalid_albums`;
* the retry middleware `RetryWithDelayMiddleware.process_response`
  (`src/aoty_crawler/middlewares.py`, lines 109-150) together with the
  retry configuration of `src/aoty_crawler/settings.py`.

Python strings are modelled as `List Char` (written `Str` below) so
that every string operation is structurally recursive and evaluable by
the kernel; Python `None` is `Option`, Python sets of URLs are lists
with membership, Python float values are `ℚ`.  Relative album links
are treated as already absolute (`response.urljoin` is the identity in
the model); this is harmless for every property below, which only ever
compares links for equality.
-/

namespace AotyCrawler

/-- A Python string, modelled as its character list. -/
abbrev Str := List Char

/-- ASCII lowercasing of one character, the effect of Python
`str.lower` on the crawler's ASCII genre slugs and names. -/
def lowerChar (c : Char) : Char :=
  if 65 ≤ c.toNat ∧ c.toNat ≤ 90 then Char.ofNat (c.toNat + 32) else c

/-- Python `s.lower()`. -/
def lowerL (l : Str) : Str := l.map lowerChar

/-- Does `sep` occur at the head of the second list?  (Helper for the
occurrence search below.) -/
def leadsWith : Str → Str → Bool
  | [], _ => true
  | _ :: _, [] => false
  | a :: as, b :: bs => a == b && leadsWith as bs

/-- Find the first occurrence of `sep`: `some (pre, post)` splits the
input as `pre ++ sep ++ post` at the leftmost occurrence, `none` when
`sep` does not occur.  This models both Python `sep in s` (via
`isSome`) and `s.split(sep, 1)` (via the two components). -/
def splitFirst? (sep : Str) : Str → Option (Str × Str)
  | [] => none
  | c :: rest =>
    if leadsWith sep (c :: rest) then some ([], (c :: rest).drop sep.length)
    else
      match splitFirst? sep rest with
      | some p => some (c :: p.1, p.2)
      | none => none

/-- Whitespace for the model of Python `str.strip()`. -/
def isWS (c : Char) : Bool := c == ' ' || c == '\t' || c == '\n' || c == '\r'

/-- Python `s.strip()`. -/
def trimL (l : Str) : Str :=
  ((l.dropWhile isWS).reverse.dropWhile isWS).reverse

/-- Python `s.replace(a, rep)` for a one-character pattern `a` (the
only patterns the genre matcher uses: `' '` and `'-'`). -/
def replaceChar (a : Char) (rep : Str) : Str → Str
  | [] => []
  | c :: rest => (if c == a then rep else [c]) ++ replaceChar a rep rest

/-- Python substring test `needle in hay` (an empty needle is contained
in everything). -/
def containsL (needle hay : Str) : Bool :=
  needle.isEmpty || (splitFirst? needle hay).isSome

/-- Python truthiness for an optional string: `None` and `""` are falsy
(this is the meaning of `if title:` in the extractors and of
`item.get(k)` checks in the pipelines). -/
def truthyStr : Option Str → Bool
  | none => false
  | some s => !s.isEmpty

/-- Python `(x or '')` applied to an optional string. -/
def pyStrOr : Option Str → Str
  | none => []
  | some s => s

/-- Numeric value of a list of decimal digit characters, most
significant first (used by the model of Python `float(...)`). -/
def digitsToNat (l : Str) : Nat :=
  l.foldl (fun a c => a * 10 + (c.toNat - 48)) 0

/-- Modelled from Python `float(s)` as used on scraped score strings:
strips surrounding whitespace, accepts an optional sign, a run of
digits, and an optional single decimal point with a run of digits, with
at least one digit overall.  Exotic float syntax (exponents, `inf`,
`nan`) is out of the crawler's input domain and is rejected, matching
the `except ValueError: return None` handling around every call. -/
def pyFloat? (s : Str) : Option ℚ :=
  let t := trimL s
  let signBody : Bool × Str :=
    match t with
    | '-' :: rest => (true, rest)
    | '+' :: rest => (false, rest)
    | cs => (false, cs)
  let neg := signBody.1
  let body := signBody.2
  match splitFirst? ['.'] body with
  | none =>
    if !body.isEmpty && body.all Char.isDigit then
      let v : ℚ := (digitsToNat body : ℚ)
      some (if neg then -v else v)
    else none
  | some (ip, fp) =>
    if (!ip.isEmpty || !fp.isEmpty) && ip.all Char.isDigit
        && fp.all Char.isDigit && fp.all (fun c => !(c == '.')) then
      let v : ℚ := (digitsToNat ip : ℚ)
        + (digitsToNat fp : ℚ) / ((10 : ℚ) ^ fp.length)
      some (if neg then -v else v)
    else none

/-! ## Genre matching (`parse_genre_page`, lines 180-200) -/

/-- The candidate-matching test of `ProductionSpider.parse_genre_page`
(lines 183-197): a candidate `(slug, name)` matches the user filter
`target` when one of the eight disjuncts of the Python `matches`
expression holds.  The last two disjuncts are Python substring tests
`target_genre_lower in genre_slug_lower` and
`target_genre_lower in genre_name_lower`. -/
def genreMatches (target slug name : Str) : Bool :=
  let t := lowerL target
  let s := lowerL slug
  let n := lowerL name
  (s == replaceChar ' ' ['-'] t) ||
  (s == replaceChar '-' [' '] t) ||
  (s == t) ||
  (s == replaceChar ' ' [] t) ||
  (n == t) ||
  (n == replaceChar '-' [' '] t) ||
  containsL t s ||
  containsL t n

/-- The set of candidates the spider keeps for a given filter: the
per-candidate filter step of `parse_genre_page` applied to a candidate
list of `(slug, display name)` pairs. -/
def selectGenres (target : Str) (cands : List (Str × Str)) :
    List (Str × Str) :=
  cands.filter (fun c => genreMatches target c.1 c.2)

/-! ## Ratings-page traversal (`parse_ratings_page`, lines 233-303) -/

/-- One ratings page as the traversal sees it: the album links extracted
from `.albumListRow .albumListTitle a`, in page order, and the optional
`a.next` pagination link. -/
structure RatingsPage where
  links : List Str
  nextPage : Option Str
deriving DecidableEq

/-- What one invocation of `parse_ratings_page` emits: the album-page
fetch tasks, in order, and the optional follow-up ratings-page task
carrying the updated `albums_scraped_this_page` counter. -/
structure StepResult where
  albumTasks : List Str
  nextTask : Option (Str × Nat)
deriving DecidableEq

/-- The usable links of a page: in resume mode (lines 247-258) the links
whose URL is not in `self.scraped_urls`, otherwise all links. -/
def usableLinks (mode : Bool) (ledger : List Str) (page : RatingsPage) :
    List Str :=
  if mode then page.links.filter (fun l => decide (l ∉ ledger)) else page.links

/-- `ProductionSpider.parse_ratings_page` on one page (lines 233-303):
filter the links in resume mode, take
`albums_to_scrape = min(len(links), albums_per_year - already_taken)`,
return early when that is not positive, emit the taken links as album
fetches, and emit a next-page task when an `a.next` link exists and
`already_taken + len(links) < albums_per_year`. -/
def parseRatingsStep (mode : Bool) (ledger : List Str) (K taken : Nat)
    (page : RatingsPage) : StepResult :=
  let links := usableLinks mode ledger page
  let toScrape := min links.length (K - taken)
  if toScrape = 0 then ⟨[], none⟩
  else
    { albumTasks := links.take toScrape
      nextTask :=
        match page.nextPage with
        | some np =>
          if taken + links.length < K then some (np, taken + links.length)
          else none
        | none => none }

/-- The traversal over a chain of paginated ratings pages for one
(genre, year): run `parse_ratings_page` on the head page and continue
into the continuation pages exactly when a next-page task was emitted,
threading the updated counter. -/
def crawlRatings (mode : Bool) (ledger : List Str) (K : Nat) :
    Nat → List RatingsPage → List Str
  | _, [] => []
  | taken, p :: rest =>
    let r := parseRatingsStep mode ledger K taken p
    match r.nextTask with
    | some nt => r.albumTasks ++ crawlRatings mode ledger K nt.2 rest
    | none => r.albumTasks

/-! ## Field extraction (`production_spider.py`, lines 374-469 and the
identical code in `comprehensive_album_spider.py`, lines 93-130) -/

/-- The selector results an album document can provide to the title,
artist and critic-score extractors.  Each field is the value of
`response.css(selector).get()` for one selector; `og:title` is shared
between the title extractor (second strategy) and the artist extractor
(third strategy), exactly as in the source. -/
structure AlbumDoc where
  /-- `h1.albumTitle span[itemprop="name"]::text` -/
  titleH1Itemprop : Option Str
  /-- `meta[property="og:title"]::attr(content)` -/
  ogTitle : Option Str
  /-- `h1::text` -/
  h1Text : Option Str
  /-- `[itemprop="byArtist"] span[itemprop="name"] a::text` -/
  byArtistLink : Option Str
  /-- `.artist a::text` -/
  artistLink : Option Str
  /-- `[itemprop="ratingValue"] a::text` -/
  ratingValue : Option Str
deriving DecidableEq

/-- The specification-side selection rule: the first strategy in the
list that yields a non-empty result wins (Python truthiness, so both
`None` and `""` fall through). -/
def firstTruthy : List (Option Str) → Option Str
  | [] => none
  | o :: rest => if truthyStr o then o else firstTruthy rest

/-- The separator `" - "` of the combined `Artist - Title` form. -/
def dashSep : Str := [' ', '-', ' ']

/-- The post-processing `_extract_album_title` applies to a matched
title (lines 392-394): when `' - '` occurs in the string, keep only the
part after the first occurrence, stripped; then strip the result. -/
def titleClean (t : Str) : Str :=
  let t1 :=
    match splitFirst? dashSep t with
    | some p => trimL p.2
    | none => t
  trimL t1

/-- The selector loop of `_extract_album_title` (lines 381-396),
with the post-processing applied inline to whichever selector matched,
exactly as in the source. -/
def extractTitleLoop : List (Option Str) → Option Str
  | [] => none
  | o :: rest =>
    match o with
    | none => extractTitleLoop rest
    | some t => if t.isEmpty then extractTitleLoop rest else some (titleClean t)

/-- The title strategies of `_extract_album_title`, in listed order. -/
def titleStrategies (doc : AlbumDoc) : List (Option Str) :=
  [doc.titleH1Itemprop, doc.ogTitle, doc.h1Text]

/-- `ProductionSpider._extract_album_title`. -/
def extractAlbumTitle (doc : AlbumDoc) : Option Str :=
  extractTitleLoop (titleStrategies doc)

/-- The placeholder denylist of `_extract_artist_name` (line 411). -/
def artistDeny : List Str :=
  ["discography".toList, "submit correction".toList]

/-- The post-processing `_extract_artist_name` applies to a matched
artist string (lines 409-410): when `' - '` occurs, keep only the part
before the first occurrence, stripped. -/
def artistClean (a : Str) : Str :=
  match splitFirst? dashSep a with
  | some p => trimL p.1
  | none => a

/-- The selector loop of `_extract_artist_name` (lines 398-414): a
matched value is cleaned, then discarded (falling through to the next
selector) when its lowercase form is on the denylist, else returned
stripped. -/
def extractArtistLoop : List (Option Str) → Option Str
  | [] => none
  | o :: rest =>
    match o with
    | none => extractArtistLoop rest
    | some a =>
      if a.isEmpty then extractArtistLoop rest
      else
        let a1 := artistClean a
        if artistDeny.contains (lowerL a1) then extractArtistLoop rest
        else some (trimL a1)

/-- The artist strategies of `_extract_artist_name`, in listed order. -/
def artistStrategies (doc : AlbumDoc) : List (Option Str) :=
  [doc.byArtistLink, doc.artistLink, doc.ogTitle]

/-- `ProductionSpider._extract_artist_name`. -/
def extractArtistName (doc : AlbumDoc) : Option Str :=
  extractArtistLoop (artistStrategies doc)

/-- `ProductionSpider._extract_critic_score` (lines 442-450): read the
single `ratingValue` selector, and on a truthy value attempt a float
parse, returning `None` on `ValueError`; `None` when the selector found
nothing. -/
def extractCriticScore (doc : AlbumDoc) : Option ℚ :=
  match doc.ratingValue with
  | none => none
  | some s => if s.isEmpty then none else pyFloat? s

/-! ## Pipelines (`pipelines.py`) and the load-time validity filter
(`utils/data_loader.py`) -/

/-- An album record as the pipelines see it: the fields that the
deduplication, validation and validity-filter code reads.
`ProductionSpider.parse_album_page` assigns every key, so each field
models `item.get(k)` with `Option` for Python `None`. -/
structure AlbumRec where
  aoty_id : Option Str
  title : Option Str
  artist_name : Option Str
  url : Option Str
  critic_score : Option ℚ
  user_score : Option ℚ
  critic_review_count : Option Nat
  user_review_count : Option Nat
  genres : Option (List Str)
deriving DecidableEq

/-- The album branch of `DuplicateCheckPipeline.process_item`
(lines 375-382), folded over an item stream: an item whose `aoty_id` is
already in `self.seen_albums` is dropped (`DropItem`), otherwise it
passes through and its id is added to the seen set. -/
def dupCheckGo : List AlbumRec → List (Option Str) → List AlbumRec
  | [], _ => []
  | r :: rest, seen =>
    if r.aoty_id ∈ seen then dupCheckGo rest seen
    else r :: dupCheckGo rest (r.aoty_id :: seen)

/-- The records that survive `DuplicateCheckPipeline` over a run,
starting from the empty seen set of `__init__`. -/
def dupCheckAlbums (rs : List AlbumRec) : List AlbumRec :=
  dupCheckGo rs []

/-- The album branch of `ValidationPipeline.process_item`
(lines 409-415): the item is kept unless `aoty_id`, `title` or `url` is
falsy (in which case `DropItem` is raised).  No other field is
examined. -/
def validationKeeps (r : AlbumRec) : Bool :=
  truthyStr r.aoty_id && truthyStr r.title && truthyStr r.url

/-- `ValidationPipeline` over an item stream. -/
def validationFilter (rs : List AlbumRec) : List AlbumRec :=
  rs.filter validationKeeps

/-- `FileStoragePipeline` over a run: `process_item` (lines 36-51)
appends every album item to `self.albums` and `close_spider`
(lines 53-88) writes all of them; no record is filtered out. -/
def fileStorageAlbums (rs : List AlbumRec) : List AlbumRec := rs

/-- The artist placeholder list of
`data_loader.filter_invalid_albums` (line 325). -/
def artistPlaceholders : List Str :=
  ["submit correction".toList, "album".toList, "artist".toList,
    "unknown".toList, "".toList]

/-- The title placeholder list of
`data_loader.filter_invalid_albums` (line 329). -/
def titlePlaceholders : List Str :=
  ["discography".toList, "album".toList, "artist".toList,
    "unknown".toList, "".toList]

/-- `has_score` of `filter_invalid_albums` (line 338). -/
def recHasScore (r : AlbumRec) : Bool :=
  r.critic_score.isSome || r.user_score.isSome

/-- `has_reviews` of `filter_invalid_albums` (line 339):
`(critic_reviews or 0) > 0 or (user_reviews or 0) > 0`. -/
def recHasReviews (r : AlbumRec) : Bool :=
  decide (0 < r.critic_review_count.getD 0)
    || decide (0 < r.user_review_count.getD 0)

/-- Python `not genres` is true for `None` and `[]`; this is the keep
condition of the genre check (lines 344-347). -/
def genresNonempty (r : AlbumRec) : Bool :=
  match r.genres with
  | none => false
  | some gs => !gs.isEmpty

/-- The per-record keep condition of
`data_loader.filter_invalid_albums` (lines 305-349): the record is kept
unless one of the four skip conditions fires (placeholder artist,
placeholder title, no score and no reviews, empty genre list). -/
def validAlbum (r : AlbumRec) : Bool :=
  !(artistPlaceholders.contains (lowerL (trimL (pyStrOr r.artist_name))))
    && !(titlePlaceholders.contains (lowerL (trimL (pyStrOr r.title))))
    && (recHasScore r || recHasReviews r)
    && genresNonempty r

/-- `data_loader.filter_invalid_albums`: the loop with `continue`
skips is the filter by `validAlbum`. -/
def filterInvalidAlbums (rs : List AlbumRec) : List AlbumRec :=
  rs.filter validAlbum

/-! ## Retry middleware (`middlewares.py`, lines 109-150, and
`settings.py`, lines 104-107) -/

/-- The default retryable status list of
`RetryWithDelayMiddleware.__init__` (line 116). -/
def defaultRetryCodes : List Nat := [500, 502, 503, 504, 408, 429, 403]

/-- `RETRY_HTTP_CODES` of `settings.py` (line 106), read by
`from_crawler`. -/
def settingsRetryCodes : List Nat :=
  [500, 502, 503, 504, 522, 524, 408, 429, 403]

/-- The decision of `RetryWithDelayMiddleware.process_response`
(lines 128-150): `some n` means a retry request is returned carrying
`retry_times = n`; `none` means the response is passed through
unchanged (surfaced).  A retry happens exactly when the status is in
the configured code list and the prior attempt count is below
`max_retry_times`. -/
def processResponseRetry (codes : List Nat) (maxRetryTimes status retryTimes : Nat) :
    Option Nat :=
  if status ∈ codes then
    if retryTimes < maxRetryTimes then some (retryTimes + 1) else none
  else none

/-- The backoff of line 137:
`delay = self.download_delay * (2 ** retry_times) + random.uniform(0, 1)`,
with the jitter as an explicit parameter. -/
def backoffDelay (baseDelay : ℚ) (retryTimes : Nat) (jitter : ℚ) : ℚ :=
  baseDelay * 2 ^ retryTimes + jitter

/-! ## Concrete data used by witnesses and counterexamples -/

/-- The genre-filter candidate set of the specification's genre-matching
example: slugs `pop`, `dream-pop`, `toy-pop` with their display names. -/
def popCandidates : List (Str × Str) :=
  [("pop".toList, "Pop".toList), ("dream-pop".toList, "Dream Pop".toList),
    ("toy-pop".toList, "Toy Pop".toList)]

/-- A pagination chain whose middle page yields zero album links:
page 1 has one link and a next-page link, page 2 has no album links but
a next-page link, page 3 has two links. -/
def quotaCexPages : List RatingsPage :=
  [⟨["a1".toList], some "p2".toList⟩,
    ⟨[], some "p3".toList⟩,
    ⟨["b1".toList, "b2".toList], none⟩]

/-- Resume ledger for the resume-accounting counterexample. -/
def resumeLedgerCex : List Str := ["u1".toList, "u2".toList]

/-- A ratings page with two already-scraped links and three new ones. -/
def resumePageCex : RatingsPage :=
  ⟨["u1".toList, "u2".toList, "n1".toList, "n2".toList, "n3".toList], none⟩

/-- A ratings page with one already-scraped link, two new links and a
next-page link (resume-accounting witness). -/
def resumePageW : RatingsPage :=
  ⟨["u1".toList, "n1".toList, "n2".toList], some "np".toList⟩

/-- A one-link ratings page with a next-page link (pagination witness). -/
def smallPageW : RatingsPage := ⟨["a".toList], some "n".toList⟩

/-- The earlier of two album records sharing an `aoty_id`. -/
def recEarlier : AlbumRec :=
  { aoty_id := some "100-x".toList, title := some "First".toList
    artist_name := some "A".toList, url := some "u".toList
    critic_score := none, user_score := none
    critic_review_count := none, user_review_count := none
    genres := none }

/-- The later of two album records sharing an `aoty_id`. -/
def recLater : AlbumRec :=
  { aoty_id := some "100-x".toList, title := some "Second".toList
    artist_name := some "B".toList, url := some "u".toList
    critic_score := none, user_score := none
    critic_review_count := none, user_review_count := none
    genres := none }

/-- A record with the `Submit Correction` placeholder artist but with
every field the persistence-time validation looks at present. -/
def subCorrectionRec : AlbumRec :=
  { aoty_id := some "1-x".toList, title := some "Great Album".toList
    artist_name := some "Submit Correction".toList
    url := some "https://e.org/album/1-x.php".toList
    critic_score := none, user_score := none
    critic_review_count := some 10, user_review_count := none
    genres := some ["Rock".toList] }

/-- A record with review counts present but an empty genre list. -/
def emptyGenresRec : AlbumRec :=
  { aoty_id := some "2-y".toList, title := some "Another".toList
    artist_name := some "Real Artist".toList
    url := some "https://e.org/album/2-y.php".toList
    critic_score := none, user_score := none
    critic_review_count := some 5, user_review_count := none
    genres := some [] }

/-- A record every validity check accepts. -/
def goodRec : AlbumRec :=
  { aoty_id := some "3-z".toList, title := some "Good One".toList
    artist_name := some "Some Band".toList
    url := some "https://e.org/album/3-z.php".toList
    critic_score := none, user_score := none
    critic_review_count := some 3, user_review_count := none
    genres := some ["Rock".toList] }

/-- A document whose primary title selector and primary artist selector
both return legitimate values containing `' - '`. -/
def splitDoc : AlbumDoc :=
  { titleH1Itemprop := some "Album X - Part Two".toList
    ogTitle := none, h1Text := none
    byArtistLink := some "Tyler - The Creator".toList
    artistLink := none, ratingValue := none }

/-- A document on which every title strategy is falsy and the critic
score selector returns an unparsable string. -/
def emptyDoc : AlbumDoc :=
  { titleH1Itemprop := none, ogTitle := some [], h1Text := none
    byArtistLink := none, artistLink := none
    ratingValue := some "N/A".toList }

end AotyCrawler

namespace AotyCrawler

/-! ## Theorems -/

/-- C2 (code bug): the genre matcher of
`ProductionSpider.parse_genre_page` accepts any candidate containing
the filter as a substring, so filter `pop` selects `dream-pop` and
`toy-pop` in addition to the exact candidate `pop` — contrary to the
claim (and to the expectations recorded in
`src/test_slug_generation.py`, which require `dream-pop` not to match).
For `hip-hop` the claim's example happens to hold, because `hip-hop` is
not a substring of `trip-hop`. -/
theorem genre_filter_substring_bug :
    selectGenres "pop".toList popCandidates = popCandidates
    ∧ genreMatches "pop".toList "pop".toList "Pop".toList = true
    ∧ genreMatches "pop".toList "dream-pop".toList "Dream Pop".toList = true
    ∧ genreMatches "pop".toList "toy-pop".toList "Toy Pop".toList = true
    ∧ genreMatches "hip-hop".toList "trip-hop".toList "Trip Hop".toList = false := by
  decide

/-- C9 counterexample: HTTP status 501 is ≥ 500 and has had zero
attempts, yet `process_response` surfaces the response without retry,
because 501 is in neither the middleware's default code list nor the
`RETRY_HTTP_CODES` of `settings.py`. -/
theorem retry_policy_counterexample :
    processResponseRetry defaultRetryCodes 3 501 0 = none
    ∧ processResponseRetry settingsRetryCodes 3 501 0 = none
    ∧ 500 ≤ 501 ∧ (0 : Nat) < 3 := by
  decide

/-- C9 (amended): a retry is issued exactly when the status is in the
configured finite code list — `[500, 502, 503, 504, 408, 429, 403]` by
middleware default, not every status ≥ 500 — and the attempt count is
below the cap; otherwise the response is surfaced; each retry's delay
is `base_delay * 2 ^ attempt + jitter` with the uniform jitter in
`[0, 1)`, so the delay lies in `[base * 2 ^ attempt, base * 2 ^ attempt + 1)`
for the configured base delay 3. -/
theorem retry_policy_amended :
    ∀ status retryTimes : Nat,
      (processResponseRetry defaultRetryCodes 3 status retryTimes
          = some (retryTimes + 1)
        ↔ status ∈ defaultRetryCodes ∧ retryTimes < 3)
      ∧ (processResponseRetry defaultRetryCodes 3 status retryTimes = none
        ↔ status ∉ defaultRetryCodes ∨ 3 ≤ retryTimes)
      ∧ ∀ jitter : ℚ, 0 ≤ jitter → jitter < 1 →
          (3 : ℚ) * 2 ^ retryTimes ≤ backoffDelay 3 retryTimes jitter
          ∧ backoffDelay 3 retryTimes jitter < 3 * 2 ^ retryTimes + 1 := by
  intro status retryTimes
  refine ⟨?_, ?_, ?_⟩
  · unfold processResponseRetry
    split_ifs with h1 h2 <;> simp_all
  · unfold processResponseRetry
    split_ifs with h1 h2 <;> simp_all
  · intro jitter hj0 hj1
    unfold backoffDelay
    constructor <;> linarith

/-- Witness for C9's amended theorem at status 500, zero prior
attempts and jitter one half. -/
theorem retry_policy_amended_witness :
    processResponseRetry defaultRetryCodes 3 500 0 = some 1
    ∧ (3 : ℚ) * 2 ^ 0 ≤ backoffDelay 3 0 (1 / 2)
    ∧ backoffDelay 3 0 (1 / 2) < 3 * 2 ^ 0 + 1 := by
  have h := retry_policy_amended 500 0
  have hd := h.2.2 (1 / 2) (by norm_num) (by norm_num)
  exact ⟨h.1.mpr ⟨by decide, by omega⟩, hd.1, hd.2⟩

/-- Evaluation of `parse_ratings_page` in the early-return case:
`albums_to_scrape ≤ 0`. -/
theorem parseRatingsStep_zero (mode : Bool) (ledger : List Str) (K taken : Nat)
    (page : RatingsPage)
    (h : min (usableLinks mode ledger page).length (K - taken) = 0) :
    parseRatingsStep mode ledger K taken page = ⟨[], none⟩ := by
  unfold parseRatingsStep
  rw [if_pos h]

/-- The album tasks of `parse_ratings_page` when the early return is
not taken. -/
theorem parseRatingsStep_tasks (mode : Bool) (ledger : List Str) (K taken : Nat)
    (page : RatingsPage)
    (h : min (usableLinks mode ledger page).length (K - taken) ≠ 0) :
    (parseRatingsStep mode ledger K taken page).albumTasks
      = (usableLinks mode ledger page).take
          (min (usableLinks mode ledger page).length (K - taken)) := by
  unfold parseRatingsStep
  rw [if_neg h]

/-- The next-page task of `parse_ratings_page` when the early return is
not taken and the page has an `a.next` link. -/
theorem parseRatingsStep_next_some (mode : Bool) (ledger : List Str)
    (K taken : Nat) (page : RatingsPage) (np : Str)
    (h : min (usableLinks mode ledger page).length (K - taken) ≠ 0)
    (hnp : page.nextPage = some np) :
    (parseRatingsStep mode ledger K taken page).nextTask
      = if taken + (usableLinks mode ledger page).length < K
        then some (np, taken + (usableLinks mode ledger page).length)
        else none := by
  unfold parseRatingsStep
  rw [if_neg h, hnp]

/-- The next-page task of `parse_ratings_page` is absent when the page
has no `a.next` link. -/
theorem parseRatingsStep_next_none (mode : Bool) (ledger : List Str)
    (K taken : Nat) (page : RatingsPage)
    (hnp : page.nextPage = none) :
    (parseRatingsStep mode ledger K taken page).nextTask = none := by
  unfold parseRatingsStep
  by_cases h : min (usableLinks mode ledger page).length (K - taken) = 0
  · rw [if_pos h]
  · rw [if_neg h, hnp]

/-- In resume mode the usable links are the ledger-filtered links. -/
theorem usableLinks_resume (ledger : List Str) (page : RatingsPage) :
    usableLinks true ledger page
      = page.links.filter (fun l => decide (l ∉ ledger)) := by
  simp [usableLinks]

/-- Every usable link of a resume-mode page is outside the ledger. -/
theorem usableLinks_not_mem (ledger : List Str) (page : RatingsPage)
    (l : Str) (hl : l ∈ usableLinks true ledger page) : l ∉ ledger := by
  rw [usableLinks_resume] at hl
  simp only [List.mem_filter, decide_eq_true_eq] at hl
  exact hl.2

/-- C3 (confirmed): on a ratings page whose link list holds `N` URLs
already in the resume ledger and `M` new ones, with `M` within the
per-year quota, the resumed traversal emits album-fetch tasks for
exactly the `M` new URLs — none of them in the ledger, and exactly `M`
of them, not `N + M`. -/
theorem resume_ledger_roundtrip :
    ∀ (ledger : List Str) (K N M : Nat) (page : RatingsPage),
      (page.links.filter (fun l => decide (l ∈ ledger))).length = N →
      (page.links.filter (fun l => decide (l ∉ ledger))).length = M →
      M ≤ K →
      (parseRatingsStep true ledger K 0 page).albumTasks
          = page.links.filter (fun l => decide (l ∉ ledger))
      ∧ (parseRatingsStep true ledger K 0 page).albumTasks.length = M
      ∧ ∀ l ∈ (parseRatingsStep true ledger K 0 page).albumTasks, l ∉ ledger := by
  intro ledger K N M page _ hM hMK
  have hul : (usableLinks true ledger page).length = M := by
    rw [usableLinks_resume, hM]
  have htasks : (parseRatingsStep true ledger K 0 page).albumTasks
      = page.links.filter (fun l => decide (l ∉ ledger)) := by
    by_cases hM0 : M = 0
    · have hnil : usableLinks true ledger page = [] :=
        List.length_eq_zero.mp (by rw [hul, hM0])
      rw [parseRatingsStep_zero _ _ _ _ _ (by rw [hul]; omega),
        ← usableLinks_resume, hnil]
    · have hmin : min (usableLinks true ledger page).length (K - 0) = M := by
        rw [hul]; omega
      rw [parseRatingsStep_tasks _ _ _ _ _ (by omega), hmin,
        ← usableLinks_resume, ← hul, List.take_length]
  refine ⟨htasks, by rw [htasks, hM], ?_⟩
  intro l hl
  rw [htasks, ← usableLinks_resume] at hl
  exact usableLinks_not_mem ledger page l hl

/-- Witness for C3 at a page with two ledger URLs and two new URLs. -/
theorem resume_ledger_roundtrip_witness :
    (parseRatingsStep true ["o1".toList, "o2".toList] 10 0
        ⟨["o1".toList, "n1".toList, "o2".toList, "n2".toList], none⟩).albumTasks.length = 2
    ∧ "n1".toList ∉ ["o1".toList, "o2".toList] := by
  have h := resume_ledger_roundtrip ["o1".toList, "o2".toList] 10 2 2
    ⟨["o1".toList, "n1".toList, "o2".toList, "n2".toList], none⟩
    (by decide) (by decide) (by omega)
  refine ⟨h.2.1, h.2.2 "n1".toList ?_⟩
  rw [h.1]; decide

/-- C6 counterexample: with quota 3, a ledger holding `u1, u2` and a
page listing `u1, u2, n1, n2, n3`, the spider emits three album tasks.
Under the claim the two skipped links would count toward the quota,
leaving room for at most `3 - 2 = 1` task. -/
theorem resume_quota_counterexample :
    (parseRatingsStep true resumeLedgerCex 3 0 resumePageCex).albumTasks
        = ["n1".toList, "n2".toList, "n3".toList]
    ∧ (resumePageCex.links.filter (fun l => decide (l ∈ resumeLedgerCex))).length = 2
    ∧ ¬((parseRatingsStep true resumeLedgerCex 3 0 resumePageCex).albumTasks.length
          ≤ 3 - 2) := by
  decide

/-- C6 (amended): in resume mode, links already in the resume ledger
are removed before any quota accounting: the number of emitted album
tasks is `min(#unseen links, quota - already_taken)`, no emitted link
is in the ledger, and the `already_taken` counter passed to the next
page counts only the unseen links — skipped links do not count toward
the per-year quota. -/
theorem resume_quota_accounting_amended :
    ∀ (ledger : List Str) (K taken : Nat) (page : RatingsPage),
      (parseRatingsStep true ledger K taken page).albumTasks.length
          = min (usableLinks true ledger page).length (K - taken)
      ∧ (∀ l ∈ (parseRatingsStep true ledger K taken page).albumTasks, l ∉ ledger)
      ∧ ∀ np t2, (parseRatingsStep true ledger K taken page).nextTask = some (np, t2) →
          t2 = taken + (usableLinks true ledger page).length := by
  intro ledger K taken page
  refine ⟨?_, ?_, ?_⟩
  · by_cases h0 : min (usableLinks true ledger page).length (K - taken) = 0
    · rw [parseRatingsStep_zero _ _ _ _ _ h0]
      simp [h0.symm]
    · rw [parseRatingsStep_tasks _ _ _ _ _ h0, List.length_take]
      omega
  · intro l hl
    by_cases h0 : min (usableLinks true ledger page).length (K - taken) = 0
    · rw [parseRatingsStep_zero _ _ _ _ _ h0] at hl
      simp at hl
    · rw [parseRatingsStep_tasks _ _ _ _ _ h0] at hl
      exact usableLinks_not_mem ledger page l (List.mem_of_mem_take hl)
  · intro np t2 hnt
    by_cases h0 : min (usableLinks true ledger page).length (K - taken) = 0
    · rw [parseRatingsStep_zero _ _ _ _ _ h0] at hnt
      simp at hnt
    · cases hnp : page.nextPage with
      | none =>
        rw [parseRatingsStep_next_none _ _ _ _ _ hnp] at hnt
        simp at hnt
      | some np' =>
        rw [parseRatingsStep_next_some _ _ _ _ _ _ h0 hnp] at hnt
        by_cases hc : taken + (usableLinks true ledger page).length < K
        · rw [if_pos hc] at hnt
          injection hnt with h
          exact (congrArg Prod.snd h).symm
        · rw [if_neg hc] at hnt
          exact absurd hnt (by simp)

/-- Witness for C6's amended theorem on a page with one ledger link and
two new links, continuing to a next page. -/
theorem resume_quota_accounting_amended_witness :
    (parseRatingsStep true ["u1".toList] 3 0 resumePageW).albumTasks.length
        = min (usableLinks true ["u1".toList] resumePageW).length (3 - 0)
    ∧ "n1".toList ∉ ["u1".toList]
    ∧ (2 : Nat) = 0 + (usableLinks true ["u1".toList] resumePageW).length := by
  have h := resume_quota_accounting_amended ["u1".toList] 3 0 resumePageW
  exact ⟨h.1, h.2.1 "n1".toList (by decide), h.2.2 "np".toList 2 (by decide)⟩

/-- C8 (confirmed): a next-page task is emitted only when the page has
an `a.next` link, the per-year quota is not yet met, and the page
contributed at least one usable album link (indeed only when even all
of this page's usable links leave the quota unmet); a page with zero
usable links emits nothing and never continues pagination; a page
processed with the quota already met emits no tasks at all. -/
theorem pagination_stop_condition :
    ∀ (mode : Bool) (ledger : List Str) (K taken : Nat) (page : RatingsPage),
      (∀ nt, (parseRatingsStep mode ledger K taken page).nextTask = some nt →
          page.nextPage.isSome = true ∧ taken < K
            ∧ usableLinks mode ledger page ≠ []
            ∧ taken + (usableLinks mode ledger page).length < K)
      ∧ (usableLinks mode ledger page = [] →
          parseRatingsStep mode ledger K taken page = ⟨[], none⟩)
      ∧ (K ≤ taken →
          parseRatingsStep mode ledger K taken page = ⟨[], none⟩) := by
  intro mode ledger K taken page
  refine ⟨?_, ?_, ?_⟩
  · intro nt hnt
    by_cases h0 : min (usableLinks mode ledger page).length (K - taken) = 0
    · rw [parseRatingsStep_zero _ _ _ _ _ h0] at hnt
      simp at hnt
    · cases hnp : page.nextPage with
      | none =>
        rw [parseRatingsStep_next_none _ _ _ _ _ hnp] at hnt
        simp at hnt
      | some np' =>
        rw [parseRatingsStep_next_some _ _ _ _ _ _ h0 hnp] at hnt
        by_cases hc : taken + (usableLinks mode ledger page).length < K
        · refine ⟨by rfl, by omega, ?_, hc⟩
          intro hnil
          rw [hnil] at h0
          simp at h0
        · rw [if_neg hc] at hnt
          exact absurd hnt (by simp)
  · intro hnil
    apply parseRatingsStep_zero
    rw [hnil]
    simp
  · intro hK
    apply parseRatingsStep_zero
    omega

/-- Witness for C8 on a one-link page with a next-page link (quota not
met) and on the same page with the quota already met. -/
theorem pagination_stop_condition_witness :
    (smallPageW.nextPage.isSome = true ∧ 0 < 2
        ∧ usableLinks false [] smallPageW ≠ []
        ∧ 0 + (usableLinks false [] smallPageW).length < 2)
    ∧ parseRatingsStep false [] 2 5 smallPageW = ⟨[], none⟩ := by
  have h1 := pagination_stop_condition false [] 2 0 smallPageW
  have h2 := pagination_stop_condition false [] 2 5 smallPageW
  exact ⟨h1.1 ("n".toList, 1) (by decide), h2.2.2 (by omega)⟩

/-- The title loop is the first-truthy-strategy rule followed by the
title post-processing. -/
theorem extractTitleLoop_eq (os : List (Option Str)) :
    extractTitleLoop os = (firstTruthy os).map titleClean := by
  induction os with
  | nil => rfl
  | cons o rest ih =>
    cases o with
    | none => simpa [extractTitleLoop, firstTruthy, truthyStr] using ih
    | some t =>
      cases ht : t.isEmpty with
      | true => simpa [extractTitleLoop, firstTruthy, truthyStr, ht] using ih
      | false => simp [extractTitleLoop, firstTruthy, truthyStr, ht]

/-- C7 (confirmed): the extractors try their strategies in listed
order; the first strategy yielding a non-empty value determines the
result (for the title, via the post-processing of that value); if every
strategy fails the result is `None`, and an unparsable critic-score
string also yields `None` rather than an error.  (The Lean model is a
total function, mirroring the fact that the Python code catches its own
`ValueError`s and cannot raise.) -/
theorem field_extractor_fallback :
    ∀ doc : AlbumDoc,
      extractAlbumTitle doc = (firstTruthy (titleStrategies doc)).map titleClean
      ∧ extractCriticScore doc = (firstTruthy [doc.ratingValue]).bind pyFloat?
      ∧ ((∀ o ∈ titleStrategies doc, truthyStr o = false) →
          extractAlbumTitle doc = none)
      ∧ (∀ s, doc.ratingValue = some s → pyFloat? s = none →
          extractCriticScore doc = none) := by
  intro doc
  refine ⟨extractTitleLoop_eq _, ?_, ?_, ?_⟩
  · cases hrv : doc.ratingValue with
    | none => simp [extractCriticScore, firstTruthy, truthyStr, hrv]
    | some s =>
      cases hs : s.isEmpty with
      | true => simp [extractCriticScore, firstTruthy, truthyStr, hrv, hs]
      | false => simp [extractCriticScore, firstTruthy, truthyStr, hrv, hs]
  · intro hall
    have h1 := hall doc.titleH1Itemprop (by simp [titleStrategies])
    have h2 := hall doc.ogTitle (by simp [titleStrategies])
    have h3 := hall doc.h1Text (by simp [titleStrategies])
    rw [extractAlbumTitle, extractTitleLoop_eq]
    simp [firstTruthy, titleStrategies, h1, h2, h3]
  · intro s hs hparse
    rw [extractCriticScore, hs]
    cases hse : s.isEmpty with
    | true => simp [hse]
    | false => simp [hse, hparse]

/-- Witness for C7: a document on which every title strategy is falsy
(`None`, `""`, `None`) and the critic-score selector yields the
unparsable string `N/A`. -/
theorem field_extractor_fallback_witness :
    extractAlbumTitle emptyDoc = none ∧ extractCriticScore emptyDoc = none := by
  have h := field_extractor_fallback emptyDoc
  exact ⟨h.2.2.1 (by decide), h.2.2.2 "N/A".toList (by decide) (by decide)⟩

/-- C10 (confirmed): the `Artist - Title` split applies to whichever
strategy matched first, including the primary selectors: whenever the
primary title selector yields a non-empty string with an `' - '`
occurrence, the extracted title is only the (stripped) part after the
first occurrence, and whenever the primary artist selector yields a
non-empty string with an `' - '` occurrence whose leading part is not
on the placeholder denylist, the extracted artist is only the
(stripped) part before the first occurrence — so legitimate names
containing `' - '` are truncated. -/
theorem artist_title_split_truncation :
    ∀ (doc : AlbumDoc) (t a : Str) (tp ap : Str × Str),
      (doc.titleH1Itemprop = some t → t ≠ [] →
        splitFirst? dashSep t = some tp →
        extractAlbumTitle doc = some (trimL (trimL tp.2)))
      ∧ (doc.byArtistLink = some a → a ≠ [] →
          splitFirst? dashSep a = some ap →
          artistDeny.contains (lowerL (trimL ap.1)) = false →
          extractArtistName doc = some (trimL (trimL ap.1))) := by
  intro doc t a tp ap
  constructor
  · intro h1 h2 h3
    have hne : t.isEmpty = false := by
      cases t with
      | nil => exact absurd rfl h2
      | cons c cs => rfl
    rw [extractAlbumTitle, titleStrategies, h1]
    rw [extractTitleLoop, hne]
    simp only [Bool.false_eq_true, if_false, titleClean, h3]
  · intro h1 h2 h3 h4
    have hne : a.isEmpty = false := by
      cases a with
      | nil => exact absurd rfl h2
      | cons c cs => rfl
    have hclean : artistClean a = trimL ap.1 := by
      rw [artistClean, h3]
    rw [extractArtistName, artistStrategies, h1]
    rw [extractArtistLoop, hne]
    simp only [Bool.false_eq_true, if_false, hclean, h4]

/-- Witness for C10: the primary selectors return
`Album X - Part Two` and `Tyler - The Creator`; the extractors emit the
truncated `Part Two` and `Tyler`. -/
theorem artist_title_split_truncation_witness :
    extractAlbumTitle splitDoc = some "Part Two".toList
    ∧ extractArtistName splitDoc = some "Tyler".toList := by
  have h := artist_title_split_truncation splitDoc
    "Album X - Part Two".toList "Tyler - The Creator".toList
    ("Album X".toList, "Part Two".toList)
    ("Tyler".toList, "The Creator".toList)
  constructor
  · rw [h.1 rfl (by decide) (by decide)]
    decide
  · rw [h.2 rfl (by decide) (by decide) (by decide)]
    decide

/-- Invariant of the duplicate-check fold: every surviving record's id
is outside the seen set, each surviving record is the first record in
the remaining stream with its id, and the surviving ids are distinct. -/
theorem dupCheckGo_spec (rs : List AlbumRec) :
    ∀ seen : List (Option Str),
      (∀ r ∈ dupCheckGo rs seen, r.aoty_id ∉ seen
          ∧ rs.find? (fun x => x.aoty_id == r.aoty_id) = some r)
      ∧ ((dupCheckGo rs seen).map (fun r => r.aoty_id)).Nodup := by
  induction rs with
  | nil =>
    intro seen
    refine ⟨?_, by simp [dupCheckGo]⟩
    intro r hr
    simp [dupCheckGo] at hr
  | cons x rest ih =>
    intro seen
    by_cases hx : x.aoty_id ∈ seen
    · rw [dupCheckGo, if_pos hx]
      refine ⟨?_, (ih seen).2⟩
      intro r hr
      obtain ⟨hnotin, hfind⟩ := (ih seen).1 r hr
      refine ⟨hnotin, ?_⟩
      rw [List.find?_cons_of_neg, hfind]
      simp only [beq_iff_eq]
      intro heq
      exact hnotin (heq ▸ hx)
    · rw [dupCheckGo, if_neg hx]
      constructor
      · intro r hr
        rcases List.mem_cons.mp hr with rfl | hr
        · exact ⟨hx, List.find?_cons_of_pos _ (by simp)⟩
        · obtain ⟨hnotin, hfind⟩ := (ih (x.aoty_id :: seen)).1 r hr
          have hne : ¬x.aoty_id = r.aoty_id := by
            intro heq
            exact hnotin (by simp [heq])
          refine ⟨fun hmem => hnotin (by simp [hmem]), ?_⟩
          rw [List.find?_cons_of_neg, hfind]
          simpa using hne
      · rw [List.map_cons, List.nodup_cons]
        refine ⟨?_, (ih (x.aoty_id :: seen)).2⟩
        intro hmem
        obtain ⟨r, hr, hid⟩ := List.mem_map.mp hmem
        exact ((ih (x.aoty_id :: seen)).1 r hr).1 (by simp [hid])

/-- C4 counterexample: two records share `aoty_id` `100-x`;
`DuplicateCheckPipeline` keeps the record gathered first and drops the
later one — the opposite of last-write-wins. -/
theorem dedup_last_write_counterexample :
    dupCheckAlbums [recEarlier, recLater] = [recEarlier]
    ∧ recEarlier.aoty_id = recLater.aoty_id
    ∧ recEarlier ≠ recLater := by
  decide

/-- C4 (amended): the deduplication of `DuplicateCheckPipeline` is
first-write-wins — each surviving record is the earliest record of the
run with its `aoty_id`, later records with a seen id are dropped — and
no two records surviving the deduplication pass share an `aoty_id`. -/
theorem dedup_first_write_wins :
    ∀ rs : List AlbumRec,
      ((dupCheckAlbums rs).map (fun r => r.aoty_id)).Nodup
      ∧ ∀ r ∈ dupCheckAlbums rs,
          rs.find? (fun x => x.aoty_id == r.aoty_id) = some r := by
  intro rs
  refine ⟨(dupCheckGo_spec rs []).2, ?_⟩
  intro r hr
  exact ((dupCheckGo_spec rs []).1 r hr).2

/-- Witness for C4's amended theorem: of the two records sharing an id,
the survivor is the first one. -/
theorem dedup_first_write_wins_witness :
    [recEarlier, recLater].find?
        (fun x => x.aoty_id == recEarlier.aoty_id) = some recEarlier := by
  have h := dedup_first_write_wins [recEarlier, recLater]
  exact h.2 recEarlier (by decide)

/-- C5 counterexample: a record with artist `Submit Correction` (and an
empty-genre record with review counts) passes the persistence-time
`ValidationPipeline` — which only checks `aoty_id`, `title`, `url` —
and is stored by `FileStoragePipeline`, so the claimed validity
invariant is not enforced before persistence. -/
theorem validity_filter_counterexample :
    fileStorageAlbums (validationFilter [subCorrectionRec, emptyGenresRec])
        = [subCorrectionRec, emptyGenresRec]
    ∧ subCorrectionRec.artist_name = some "Submit Correction".toList
    ∧ emptyGenresRec.genres = some []
    ∧ recHasReviews emptyGenresRec = true := by
  decide

/-- C5 (amended): the validity invariant is enforced when loading
persisted output, by `data_loader.filter_invalid_albums`, not before
persistence: every record surviving that filter has a non-placeholder
artist (in particular never `Submit Correction`), a non-placeholder
title, a score or a positive review count, and a non-empty genre
list. -/
theorem validity_filter_on_load :
    ∀ (rs : List AlbumRec) (r : AlbumRec), r ∈ filterInvalidAlbums rs →
      r.artist_name ≠ some "Submit Correction".toList
      ∧ artistPlaceholders.contains (lowerL (trimL (pyStrOr r.artist_name))) = false
      ∧ titlePlaceholders.contains (lowerL (trimL (pyStrOr r.title))) = false
      ∧ (recHasScore r || recHasReviews r) = true
      ∧ ∃ gs, r.genres = some gs ∧ gs ≠ [] := by
  intro rs r hr
  have hv : validAlbum r = true := (List.mem_filter.mp hr).2
  rw [validAlbum] at hv
  simp only [Bool.and_eq_true, Bool.not_eq_true'] at hv
  obtain ⟨⟨⟨ha, ht⟩, hs⟩, hg⟩ := hv
  refine ⟨?_, ha, ht, hs, ?_⟩
  · intro heq
    rw [heq] at ha
    have : artistPlaceholders.contains
        (lowerL (trimL (pyStrOr (some "Submit Correction".toList)))) = true := by
      decide
    rw [this] at ha
    exact Bool.noConfusion ha
  · rw [genresNonempty] at hg
    cases hgen : r.genres with
    | none => rw [hgen] at hg; simp at hg
    | some gs =>
      rw [hgen] at hg
      simp only [Bool.not_eq_true'] at hg
      exact ⟨gs, rfl, by simpa using hg⟩

/-- Witness for C5's amended theorem at a fully valid record. -/
theorem validity_filter_on_load_witness :
    goodRec.artist_name ≠ some "Submit Correction".toList
    ∧ ∃ gs, goodRec.genres = some gs ∧ gs ≠ [] := by
  have h := validity_filter_on_load [goodRec] goodRec (by decide)
  exact ⟨h.1, h.2.2.2.2⟩

/-- Unfolding of the traversal on a page whose step emits a next-page
task. -/
theorem crawlRatings_cons_some (mode : Bool) (ledger : List Str)
    (K taken : Nat) (p : RatingsPage) (rest : List RatingsPage)
    (np : Str) (t2 : Nat)
    (h : (parseRatingsStep mode ledger K taken p).nextTask = some (np, t2)) :
    crawlRatings mode ledger K taken (p :: rest)
      = (parseRatingsStep mode ledger K taken p).albumTasks
          ++ crawlRatings mode ledger K t2 rest := by
  rw [crawlRatings, h]

/-- Unfolding of the traversal on a page whose step emits no next-page
task. -/
theorem crawlRatings_cons_none (mode : Bool) (ledger : List Str)
    (K taken : Nat) (p : RatingsPage) (rest : List RatingsPage)
    (h : (parseRatingsStep mode ledger K taken p).nextTask = none) :
    crawlRatings mode ledger K taken (p :: rest)
      = (parseRatingsStep mode ledger K taken p).albumTasks := by
  rw [crawlRatings, h]

/-- Main traversal lemma: when every page of a pagination chain
contributes at least one usable link, every non-final page carries a
next-page link, and the chain holds at least `quota - taken` usable
links, the traversal emits exactly the first `quota - taken` usable
links of the concatenated listing, in order. -/
theorem crawlRatings_take (mode : Bool) (ledger : List Str) (K : Nat) :
    ∀ (pages : List RatingsPage) (taken : Nat),
      taken ≤ K →
      (∀ p ∈ pages, usableLinks mode ledger p ≠ []) →
      (∀ p ∈ pages.dropLast, p.nextPage.isSome = true) →
      K - taken ≤ ((pages.map (usableLinks mode ledger)).flatten).length →
      crawlRatings mode ledger K taken pages
        = ((pages.map (usableLinks mode ledger)).flatten).take (K - taken) := by
  intro pages
  induction pages with
  | nil =>
    intro taken _ _ _ _
    simp [crawlRatings]
  | cons p rest ih =>
    intro taken htK hne hnext hsum
    have hulen : 1 ≤ (usableLinks mode ledger p).length := by
      have h := hne p (List.mem_cons_self _ _)
      cases hu : usableLinks mode ledger p with
      | nil => exact absurd hu h
      | cons a l => simp [hu]
    by_cases hKt : K ≤ taken
    · have h0 : min (usableLinks mode ledger p).length (K - taken) = 0 := by
        have : K - taken = 0 := by omega
        rw [this]
        exact Nat.min_zero _
      have hstep := parseRatingsStep_zero mode ledger K taken p h0
      rw [crawlRatings_cons_none mode ledger K taken p rest (by rw [hstep]),
        hstep]
      have hz : K - taken = 0 := by omega
      simp [hz]
    · have hlt : taken < K := by omega
      have h0 : min (usableLinks mode ledger p).length (K - taken) ≠ 0 := by
        have : 0 < min (usableLinks mode ledger p).length (K - taken) :=
          lt_min_iff.mpr ⟨by omega, by omega⟩
        omega
      by_cases hcase : taken + (usableLinks mode ledger p).length < K
      · have hrest : rest ≠ [] := by
          intro h
          subst h
          simp at hsum
          omega
        obtain ⟨q, rest', rfl⟩ : ∃ q rest', rest = q :: rest' := by
          cases rest with
          | nil => exact absurd rfl hrest
          | cons q r' => exact ⟨q, r', rfl⟩
        have hpnext : p.nextPage.isSome = true := by
          apply hnext p
          rw [List.dropLast_cons₂]
          exact List.mem_cons_self _ _
        obtain ⟨np, hnp⟩ := Option.isSome_iff_exists.mp hpnext
        have hmin : min (usableLinks mode ledger p).length (K - taken)
            = (usableLinks mode ledger p).length := Nat.min_eq_left (by omega)
        have htasks := parseRatingsStep_tasks mode ledger K taken p h0
        rw [hmin, List.take_length] at htasks
        have hnt := parseRatingsStep_next_some mode ledger K taken p np h0 hnp
        rw [if_pos hcase] at hnt
        rw [crawlRatings_cons_some mode ledger K taken p _ np
          (taken + (usableLinks mode ledger p).length) hnt, htasks]
        have hsum' : (((p :: q :: rest').map (usableLinks mode ledger)).flatten).length
            = (usableLinks mode ledger p).length
              + (((q :: rest').map (usableLinks mode ledger)).flatten).length := by
          simp
        rw [hsum'] at hsum
        have htn : taken + (usableLinks mode ledger p).length ≤ K := by omega
        have hsum2 : K - (taken + (usableLinks mode ledger p).length)
            ≤ (((q :: rest').map (usableLinks mode ledger)).flatten).length := by
          revert hsum
          generalize (((q :: rest').map (usableLinks mode ledger)).flatten).length = R
          generalize (usableLinks mode ledger p).length = L
          intro hsum
          omega
        have hne2 : ∀ p' ∈ q :: rest', usableLinks mode ledger p' ≠ [] :=
          fun p' hp' => hne p' (List.mem_cons_of_mem _ hp')
        have hnext2 : ∀ p' ∈ (q :: rest').dropLast, p'.nextPage.isSome = true := by
          intro p' hp'
          apply hnext p'
          rw [List.dropLast_cons₂]
          exact List.mem_cons_of_mem _ hp'
        rw [ih (taken + (usableLinks mode ledger p).length) htn hne2 hnext2 hsum2]
        have hflat : ((p :: q :: rest').map (usableLinks mode ledger)).flatten
            = usableLinks mode ledger p
                ++ ((q :: rest').map (usableLinks mode ledger)).flatten := by
          simp
        rw [hflat, List.take_append_eq_append_take,
          List.take_of_length_le
            (show (usableLinks mode ledger p).length ≤ K - taken by omega)]
        have harith : K - (taken + (usableLinks mode ledger p).length)
            = K - taken - (usableLinks mode ledger p).length := by omega
        rw [harith]
      · have hmin : min (usableLinks mode ledger p).length (K - taken)
            = K - taken := Nat.min_eq_right (by omega)
        have htasks := parseRatingsStep_tasks mode ledger K taken p h0
        rw [hmin] at htasks
        have hnt : (parseRatingsStep mode ledger K taken p).nextTask = none := by
          cases hnp : p.nextPage with
          | none => exact parseRatingsStep_next_none mode ledger K taken p hnp
          | some np =>
            rw [parseRatingsStep_next_some mode ledger K taken p np h0 hnp]
            rw [if_neg hcase]
        rw [crawlRatings_cons_none mode ledger K taken p rest hnt, htasks]
        have hflat : ((p :: rest).map (usableLinks mode ledger)).flatten
            = usableLinks mode ledger p
                ++ (rest.map (usableLinks mode ledger)).flatten := by
          simp
        rw [hflat, List.take_append_eq_append_take]
        have hz : K - taken - (usableLinks mode ledger p).length = 0 := by omega
        rw [hz]
        simp

/-- C1 counterexample: with quota 2 and an empty resume ledger, a chain
whose pages list `[a1]`, `[]`, `[b1, b2]` (each non-final page carrying
a next-page link) holds three un-seen links, yet only one AlbumFetch
task is emitted, because the zero-link middle page stops pagination. -/
theorem quota_law_counterexample :
    2 ≤ ((quotaCexPages.map RatingsPage.links).flatten).length
    ∧ (∀ p ∈ quotaCexPages.dropLast, p.nextPage.isSome = true)
    ∧ crawlRatings false [] 2 0 quotaCexPages = ["a1".toList]
    ∧ (crawlRatings false [] 2 0 quotaCexPages).length ≠ 2 := by
  decide

/-- C1 (amended): for a (genre, year) with quota `K` and a pagination
chain that contains at least `K` un-seen links, **provided every page
of the chain yields at least one usable (un-seen) link** — the
traversal stops at a page with zero usable links — exactly `K`
AlbumFetch tasks are emitted, and they are the first `K` un-seen links
of the concatenated paginated listing, in its order. -/
theorem quota_law_amended :
    ∀ (mode : Bool) (ledger : List Str) (K : Nat) (pages : List RatingsPage),
      (∀ p ∈ pages, usableLinks mode ledger p ≠ []) →
      (∀ p ∈ pages.dropLast, p.nextPage.isSome = true) →
      K ≤ ((pages.map (usableLinks mode ledger)).flatten).length →
      crawlRatings mode ledger K 0 pages
          = ((pages.map (usableLinks mode ledger)).flatten).take K
      ∧ (crawlRatings mode ledger K 0 pages).length = K := by
  intro mode ledger K pages hne hnext hsum
  have h := crawlRatings_take mode ledger K pages 0 (Nat.zero_le _) hne hnext
    (by simpa using hsum)
  rw [Nat.sub_zero] at h
  refine ⟨h, ?_⟩
  rw [h, List.length_take]
  omega

/-- Witness for C1's amended theorem: one page with three links and
quota 2 yields the first two links, in order. -/
theorem quota_law_amended_witness :
    crawlRatings false [] 2 0 [⟨["a".toList, "b".toList, "c".toList], none⟩]
        = ["a".toList, "b".toList]
    ∧ (crawlRatings false [] 2 0
        [⟨["a".toList, "b".toList, "c".toList], none⟩]).length = 2 := by
  have h := quota_law_amended false [] 2
    [⟨["a".toList, "b".toList, "c".toList], none⟩]
    (by decide) (by decide) (by decide)
  exact ⟨by rw [h.1]; decide, h.2⟩

end AotyCrawler
